import Mathlib

/-!
Verification of the chat-app session registry and command state machine.

This file shallowly embeds the core of the repository:
  - `chatState.js`  : the process-wide stores (clients map, muted set, admin
    slot, configured admin password),
  - `chatHelpers.js`: `updateUserLastSeen`, `broadcast`, `broadcastUserList`,
    `logMessage`,
  - `chatServer.js` (the exported module, lines 1-232): `handleNewConnection`,
    `handleMessage`, `processChatMessage`, the command handlers and
    `handleDisconnection`.

Modelling conventions:
  - A connection handle (WebSocket object) is an opaque identifier `Socket`
    (a `Nat`).  The transport server's connection set `wss.clients` and each
    socket's `readyState` live in the state alongside the chat stores.
  - JavaScript `Map` is an insertion-ordered association list; `Map.set` on an
    existing key updates in place, otherwise appends.  `Set` is an
    insertion-ordered duplicate-free list.
  - A JavaScript value that may be `undefined`/`null` is an `Option`.
    `a === b` on such values is `Option` equality.
  - `Date` values are abstract ticks (`Nat`); `toLocaleString`/`toISOString`
    are abstracted to decimal rendering, which no claim inspects.
  - Side effects (socket sends, log-sink writes, socket closes, console
    output) are accumulated as an ordered `List Event`.
  - An uncaught JavaScript exception (a `TypeError`) is a `Bool` flag in the
    result; a raised flag aborts the remaining statements of the caller while
    keeping the mutations already applied, exactly as exception propagation
    does in the source.
  - Executions are sequences of handler invocations on the shared state, as
    in the repository's unit tests; per-connection sequencing is inherited
    from the transport.
-/

/-- Connection handles are opaque, comparable identifiers owned by the
transport layer. -/
abbrev Socket := Nat

/-- `WebSocket.OPEN` readyState constant of the `ws` library. -/
def wsOPEN : Nat := 1

/-- `WebSocket.CLOSED` readyState constant of the `ws` library. -/
def wsCLOSED : Nat := 3

/-- The value stored in `chatState.clients` for one socket:
`{ nickname: string, lastSeen: Date }`. -/
structure ClientInfo where
  nickname : String
  lastSeen : Nat
deriving Repr, DecidableEq

/-- An observable side effect of one handler invocation, in order. -/
inductive Event where
  /-- `socket.send(text)` / `client.send(text)` -/
  | sent (s : Socket) (text : String)
  /-- `logMessage(line)`: the line forwarded to the log sink -/
  | logged (line : String)
  /-- `socket.close()` -/
  | closed (s : Socket)
  /-- `console.log(line)` -/
  | console (line : String)
deriving Repr, DecidableEq

/-- The process-wide mutable state: `chatState.js` plus the transport server's
connection set and the per-socket transport fields referenced by the core
(`readyState`, `tempNickname`). -/
structure ChatState where
  /-- `wss.clients`, in insertion order. -/
  wssClients : List Socket
  /-- `socket.readyState` per socket (missing property reads as `undefined`,
  which compares unequal to `WebSocket.OPEN`). -/
  readyState : List (Socket × Nat)
  /-- `socket.tempNickname` per socket; an entry `(s, none)` is the property
  set to `null`, a missing entry is the property deleted/absent. -/
  tempNickname : List (Socket × Option String)
  /-- `chatState.clients : Map` -/
  clients : List (Socket × ClientInfo)
  /-- `chatState.muted : Set` -/
  muted : List String
  /-- `chatState.adminSocket` (`null` is `none`) -/
  adminSocket : Option Socket
  /-- `chatState.ADMIN_PASSWORD = process.env.ADMIN_PASSWORD`
  (`undefined` when the environment variable is unset). -/
  adminPassword : Option String
deriving Repr, DecidableEq

/-- `Map.set`: update in place when the key is present (keeping its position),
otherwise append. -/
def mapSet {α : Type} : List (Socket × α) → Socket → α → List (Socket × α)
  | [], s, v => [(s, v)]
  | (k, w) :: t, s, v => if k = s then (k, v) :: t else (k, w) :: mapSet t s v

/-- `Map.delete`: remove the entry for the key, if present. -/
def mapDelete {α : Type} : List (Socket × α) → Socket → List (Socket × α)
  | [], _ => []
  | (k, w) :: t, s => if k = s then t else (k, w) :: mapDelete t s

/-- `Set.add`: append unless already a member. -/
def setAdd (l : List String) (n : String) : List String :=
  if l.contains n then l else l ++ [n]

/-- `Set.delete` for a `Set` built only through `setAdd` (duplicate-free). -/
def setDelete (l : List String) (n : String) : List String :=
  l.filter (fun x => x ≠ n)

/-- Reading `socket.tempNickname`: an absent property (`undefined`) and a
`null` value are both `none`. -/
def lookupTemp (l : List (Socket × Option String)) (s : Socket) : Option String :=
  (List.lookup s l).join

/-- JavaScript truthiness of a string-or-nullish value: `undefined`, `null`
and the empty string are falsy. -/
def truthyStr : Option String → Bool
  | none => false
  | some s => s ≠ ""

/-- The whitespace recognised by `String.prototype.trim` (the ASCII part;
no claim uses non-ASCII whitespace). -/
def isJsSpace (c : Char) : Bool :=
  c = ' ' || c = '\t' || c = '\n' || c = '\r' || c = '\x0b' || c = '\x0c'

/-- `msg.toString().trim()` -/
def jsTrim (s : String) : String :=
  ⟨((s.data.dropWhile isJsSpace).reverse.dropWhile isJsSpace).reverse⟩

/-- ASCII lower-casing of one character (`String.prototype.toLowerCase`;
the inputs the core lower-cases are ASCII). -/
def lowerChar (c : Char) : Char :=
  if 'A' ≤ c ∧ c ≤ 'Z' then Char.ofNat (c.toNat + 32) else c

/-- `s.toLowerCase()` -/
def jsToLower (s : String) : String :=
  ⟨s.data.map lowerChar⟩

/-- `String.prototype.split(' ')` on the character list: splits at every
single space, keeping empty fragments, and yields `[[]]` on the empty
string. -/
def splitChars : List Char → List (List Char)
  | [] => [[]]
  | c :: cs =>
    if c = ' ' then [] :: splitChars cs
    else
      match splitChars cs with
      | [] => [[c]]
      | t :: ts => (c :: t) :: ts

/-- `msg.split(' ')` -/
def jsSplit (s : String) : List String :=
  (splitChars s.data).map (fun l => ⟨l⟩)

/-- `date.toLocaleString()`, abstracted to decimal rendering of the tick
(no claim inspects the rendered timestamp). -/
def jsLocaleString (n : Nat) : String := toString n

/-- `date.toISOString()`, abstracted likewise. -/
def jsIsoString (n : Nat) : String := toString n

/-- `client.readyState === WebSocket.OPEN` -/
def isOpen (st : ChatState) (s : Socket) : Bool :=
  List.lookup s st.readyState == some wsOPEN

/-- The `[USERS]` roster frame built by `broadcastUserList`:
`'[USERS]' + JSON.stringify(users)` where `users` maps every registered
session to `{nickname, lastSeen}`. -/
def rosterFrame (clients : List (Socket × ClientInfo)) : String :=
  "[USERS][" ++
    String.intercalate ","
      (clients.map (fun c =>
        "\x7b\"nickname\":\"" ++ c.2.nickname ++ "\",\"lastSeen\":\"" ++
          jsIsoString c.2.lastSeen ++ "\"\x7d")) ++ "]"

/-- `chatHelpers.broadcastUserList(wss)`.  The `wss` parameter is `none` when
the caller passed no argument (as `updateUserLastSeen` does), in which case
the `for (let client of wss.clients)` loop throws a `TypeError` before any
frame is sent; the error flag of the result is `true` exactly then. -/
def broadcastUserList (wss : Option Unit) (st : ChatState) : List Event × Bool :=
  let userListMessage := rosterFrame st.clients
  match wss with
  | none => ([], true)
  | some _ =>
    ((st.wssClients.filter (fun c => isOpen st c)).map
        (fun c => Event.sent c userListMessage),
      false)

/-- `chatHelpers.updateUserLastSeen(socket)`: refresh `lastSeen`, then call
`broadcastUserList()` — with no argument, as in the source.  Returns the
updated state, the emitted events, and the uncaught-exception flag. -/
def updateUserLastSeen (s : Socket) (now : Nat) (st : ChatState) :
    ChatState × List Event × Bool :=
  match List.lookup s st.clients with
  | none => (st, [], false)
  | some info =>
    let st1 := { st with clients := mapSet st.clients s { info with lastSeen := now } }
    let r := broadcastUserList none st1
    (st1, r.1, r.2)

/-- `chatHelpers.broadcast(message, except, wss)`: send to every connection of
`wss.clients` that is open and differs from `except`, then `console.log`. -/
def broadcast (message : String) (except : Option Socket) (st : ChatState) :
    List Event :=
  (st.wssClients.filter (fun c => isOpen st c && (some c : Option Socket) ≠ except)).map
      (fun c => Event.sent c message)
    ++ [Event.console message]

/-- `chatHelpers.logMessage(msg)`: forward the pre-formatted line to the log
sink. -/
def logMessage (msg : String) : List Event :=
  [Event.logged msg]

/-- `[...chatState.clients.entries()].find(([_, clientInfo]) => clientInfo.nickname === target)`:
first registered entry whose nickname strictly equals the (possibly
`undefined`) target. -/
def findByNickname (clients : List (Socket × ClientInfo)) (target : Option String) :
    Option (Socket × ClientInfo) :=
  clients.find? (fun c => (some c.2.nickname : Option String) == target)

/-- `chatServer.handleAdminCommand(socket, password)`: `password` is
`parts[1]`, possibly `undefined`; `password === chatState.ADMIN_PASSWORD` is
`Option` equality (so `undefined === undefined` holds). -/
def handleAdminCommand (s : Socket) (password : Option String) (st : ChatState) :
    ChatState × List Event :=
  if password = st.adminPassword then
    ({ st with adminSocket := some s }, [Event.sent s "You are now the admin."])
  else
    (st, [Event.sent s "Wrong password."])

/-- `chatServer.handleKickCommand(socket, targetNickname, wss)`. -/
def handleKickCommand (s : Socket) (target : Option String) (st : ChatState) :
    ChatState × List Event :=
  if st.adminSocket ≠ some s then (st, [Event.sent s "Admin only."])
  else
    match findByNickname st.clients target with
    | some entry =>
      (st, [Event.sent entry.1 "You have been kicked.", Event.closed entry.1])
    | none => (st, [Event.sent s "User not found."])

/-- `chatServer.handleMuteCommand(socket, targetNickname, wss)`.  A bare
`/mute` adds the `undefined` value to the muted set; that element is never
observed by `muted.has(nickname)` for a string nickname, so the embedding
leaves the set unchanged in that case and renders the broadcast text with
`"undefined"` as string interpolation does. -/
def handleMuteCommand (s : Socket) (target : Option String) (st : ChatState) :
    ChatState × List Event :=
  if st.adminSocket ≠ some s then (st, [Event.sent s "Admin only."])
  else
    let st1 := match target with
      | some n => { st with muted := setAdd st.muted n }
      | none => st
    (st1, broadcast (target.getD "undefined" ++ " has been muted.") (some s) st1)

/-- `chatServer.handleUnmuteCommand(socket, targetNickname, wss)`. -/
def handleUnmuteCommand (s : Socket) (target : Option String) (st : ChatState) :
    ChatState × List Event :=
  if st.adminSocket ≠ some s then (st, [Event.sent s "Admin only."])
  else
    let st1 := match target with
      | some n => { st with muted := setDelete st.muted n }
      | none => st
    (st1, broadcast (target.getD "undefined" ++ " has been unmuted.") (some s) st1)

/-- `chatServer.handlePrivateMessage(socket, senderNickname, parts, wss)`. -/
def handlePrivateMessage (s : Socket) (senderNickname : String)
    (parts : List String) (st : ChatState) : ChatState × List Event :=
  let target := parts[1]?
  let text := String.intercalate " " (parts.drop 2)
  match findByNickname st.clients target with
  | some entry =>
    let formatted := "[Private] " ++ senderNickname ++ ": " ++ text
    (st, [Event.sent entry.1 formatted,
          Event.sent s ("(to " ++ target.getD "" ++ "): " ++ text)]
         ++ logMessage formatted)
  | none => (st, [Event.sent s "User not found."])

/-- `chatServer.handleLastSeenCommand(socket)`. -/
def handleLastSeenCommand (s : Socket) (st : ChatState) : ChatState × List Event :=
  let lastSeenList := st.clients.foldl
    (fun acc c =>
      acc ++ "- " ++ c.2.nickname ++ ": " ++
        (if isOpen st c.1 then "Online"
         else "Last seen: " ++ jsLocaleString c.2.lastSeen) ++ "\n")
    "Last seen:\n"
  (st, [Event.sent s lastSeenList])

/-- `chatServer.processChatMessage(socket, nickname, msg, wss)`: the
authenticated-state dispatcher.  `msg` is already trimmed; dispatch is the
whole-line lower-cased `exit` check followed by the `switch` on
`parts[0].toLowerCase()`. -/
def processChatMessage (s : Socket) (nickname : String) (msg : String)
    (now : Nat) (st : ChatState) : ChatState × List Event :=
  let parts := jsSplit msg
  let command := jsToLower (parts.headD "")
  if jsToLower msg = "exit" then
    (st, [Event.closed s])
  else if command = "/list" then
    (st, [Event.sent s ("Online: " ++
      String.intercalate ", " (st.clients.map (fun c => c.2.nickname)))])
  else if command = "typing:" then
    (st, (st.clients.filter (fun c => c.1 ≠ s && isOpen st c.1)).map
      (fun c => Event.sent c.1 ("[TYPING] " ++ nickname)))
  else if command = "/admin" then
    handleAdminCommand s parts[1]? st
  else if command = "/kick" then
    handleKickCommand s parts[1]? st
  else if command = "/mute" then
    handleMuteCommand s parts[1]? st
  else if command = "/unmute" then
    handleUnmuteCommand s parts[1]? st
  else if command = "/msg" then
    handlePrivateMessage s nickname parts st
  else if command = "/lastseen" then
    handleLastSeenCommand s st
  else
    if st.muted.contains nickname then
      (st, [Event.sent s "You are muted."])
    else
      let formattedMessage :=
        "[" ++ jsLocaleString now ++ " -- " ++ nickname ++ "] " ++ msg
      (st, broadcast formattedMessage (some s) st ++ logMessage formattedMessage)

/-- `chatServer.handleMessage(socket, msg, wss)`: trim the raw line, resolve
the nickname (`clientInfo ? clientInfo.nickname : socket.tempNickname`), run
the nickname-claim path when the nickname is falsy, otherwise touch the
session (`updateUserLastSeen`) and dispatch.  The error flag is `true` when
`updateUserLastSeen`'s internal `broadcastUserList()` call threw, aborting
the rest of the handler. -/
def handleMessage (s : Socket) (rawMsg : String) (now : Nat) (st : ChatState) :
    ChatState × List Event × Bool :=
  let msg := jsTrim rawMsg
  let clientInfo := List.lookup s st.clients
  let nickname : Option String :=
    match clientInfo with
    | some info => some info.nickname
    | none => lookupTemp st.tempNickname s
  if truthyStr nickname = false then
    if st.clients.any (fun c => c.2.nickname == msg) then
      (st, [Event.sent s "Nickname taken. Try another:"], false)
    else
      let st1 : ChatState := { st with
        clients := mapSet st.clients s ⟨msg, now⟩,
        tempNickname := mapDelete st.tempNickname s }
      let evs1 : List Event :=
        [Event.sent s ("Welcome " ++ msg ++
          "! Use /list, /msg, /admin, /mute, /kick, /lastseen etc.")]
        ++ broadcast (msg ++ " joined the chat") (some s) st1
        ++ (broadcastUserList (some ()) st1).1
      let r2 := updateUserLastSeen s now st1
      (r2.1, evs1 ++ r2.2.1, r2.2.2)
  else
    match clientInfo with
    | some _ =>
      let r1 := updateUserLastSeen s now st
      if r1.2.2 then (r1.1, r1.2.1, true)
      else
        let r2 := processChatMessage s (nickname.getD "") msg now r1.1
        (r2.1, r1.2.1 ++ r2.2, false)
    | none =>
      let r2 := processChatMessage s (nickname.getD "") msg now st
      (r2.1, r2.2, false)

/-- The nickname used by the teardown announcements:
`clientInfo && clientInfo.nickname` else `socket.tempNickname` else the
literal `'A user'`. -/
def fallbackTemp : Option String → String
  | some t => if t = "" then "A user" else t
  | none => "A user"

/-- See `fallbackTemp`; the full `let nickname = 'A user'; if ... else if ...`
chain of `handleDisconnection`. -/
def fallbackName (ci : Option ClientInfo) (temp : Option String) : String :=
  match ci with
  | some info => if info.nickname = "" then fallbackTemp temp else info.nickname
  | none => fallbackTemp temp

/-- `chatServer.handleDisconnection(socket, wss)`: touch (which attempts a
roster publish), then remove the session, purge its nickname from the muted
set, clear the admin slot if held, announce, publish the roster and log.  The
error flag is `true` when the initial touch threw, aborting the teardown. -/
def handleDisconnection (s : Socket) (now : Nat) (st : ChatState) :
    ChatState × List Event × Bool :=
  let r1 := updateUserLastSeen s now st
  if r1.2.2 then (r1.1, r1.2.1, true)
  else
    let st1 := r1.1
    let clientInfo := List.lookup s st1.clients
    let nickname := fallbackName clientInfo (lookupTemp st1.tempNickname s)
    let st2 := { st1 with clients := mapDelete st1.clients s }
    let st3 :=
      match clientInfo with
      | some info =>
        if st2.muted.contains info.nickname
        then { st2 with muted := setDelete st2.muted info.nickname }
        else st2
      | none => st2
    let st4 := if st3.adminSocket = some s then { st3 with adminSocket := none } else st3
    let evs := broadcast (nickname ++ " has left the chat.") none st4
        ++ (broadcastUserList (some ()) st4).1
        ++ logMessage (nickname ++ " disconnected.")
    (st4, r1.2.1 ++ evs, false)

/-- `chatServer.handleNewConnection(socket, wss)`: the nickname prompt and the
`socket.tempNickname = null` marker (the message/close/error listeners it
registers are the step relation below). -/
def handleNewConnection (s : Socket) (st : ChatState) : ChatState × List Event :=
  ({ st with tempNickname := mapSet st.tempNickname s none },
   [Event.sent s "Welcome! Enter your nickname:"])

/-- A transport-level connection: the `ws` server adds the socket to
`wss.clients` with `readyState` OPEN, then the `connection` listener runs
`handleNewConnection`. -/
def connectStep (s : Socket) (st : ChatState) : ChatState × List Event :=
  handleNewConnection s
    { st with wssClients := st.wssClients ++ [s],
              readyState := mapSet st.readyState s wsOPEN }

/-- A transport-level close: the `ws` server marks the socket CLOSED and
removes it from `wss.clients` before the user `close` listener runs
`handleDisconnection`. -/
def disconnectStep (s : Socket) (now : Nat) (st : ChatState) :
    ChatState × List Event × Bool :=
  handleDisconnection s now
    { st with wssClients := st.wssClients.filter (fun c => c ≠ s),
              readyState := mapSet st.readyState s wsCLOSED }

/-- The state at process start (`chatState.js`): empty registries, no admin,
the configured password from the environment. -/
def initState (pw : Option String) : ChatState :=
  { wssClients := [], readyState := [], tempNickname := [], clients := [],
    muted := [], adminSocket := none, adminPassword := pw }

/-- One step of the system: a new connection, an inbound line dispatched by
`handleMessage`, a direct dispatcher invocation (as the exported API and the
unit tests use), or a transport close. -/
inductive Step : ChatState → ChatState → Prop
  | connect (s : Socket) (st : ChatState) : Step st (connectStep s st).1
  | message (s : Socket) (msg : String) (now : Nat) (st : ChatState) :
      Step st (handleMessage s msg now st).1
  | process (s : Socket) (nick msg : String) (now : Nat) (st : ChatState) :
      Step st (processChatMessage s nick msg now st).1
  | disconnect (s : Socket) (now : Nat) (st : ChatState) :
      Step st (disconnectStep s now st).1

/-- States reachable from process start. -/
def Reachable (pw : Option String) (st : ChatState) : Prop :=
  Relation.ReflTransGen Step (initState pw) st
/-- The ordered projection of the registry onto nicknames. -/
def nicknames (st : ChatState) : List String :=
  st.clients.map (fun c => c.2.nickname)
/-- The inductive invariant: registered nicknames are pairwise distinct
(as a duplicate-free projection) and `tempNickname` only ever stores
`null`. -/
def RegInv (st : ChatState) : Prop :=
  (nicknames st).Nodup ∧ ∀ p ∈ st.tempNickname, p.2 = (none : Option String)
/-- Demonstration state for C1: Alice and Bob authenticated, both open. -/
def c1World : ChatState :=
  { wssClients := [0, 1], readyState := [(0, 1), (1, 1)], tempNickname := [],
    clients := [(0, ⟨"Alice", 0⟩), (1, ⟨"Bob", 0⟩)], muted := [],
    adminSocket := none, adminPassword := none }
/-- Demonstration state for C3: Alice is registered, muted and holds the
admin slot; her transport has just closed. -/
def c3World : ChatState :=
  { wssClients := [1], readyState := [(0, 3), (1, 1)], tempNickname := [],
    clients := [(0, ⟨"Alice", 0⟩), (1, ⟨"Bob", 0⟩)], muted := ["Alice"],
    adminSocket := some 0, adminPassword := none }
/-- A fresh connection (socket 0) that has not yet claimed a nickname. -/
def c4World : ChatState := (connectStep 0 (initState none)).1
def c7World : ChatState :=
  { wssClients := [0, 1], readyState := [(0, 1), (1, 1)], tempNickname := [],
    clients := [(0, ⟨"Alice", 0⟩), (1, ⟨"Bob", 0⟩)], muted := ["Bob"],
    adminSocket := none, adminPassword := none }
def c8World : ChatState :=
  { wssClients := [0, 1], readyState := [(0, 1), (1, 1)], tempNickname := [],
    clients := [(0, ⟨"Alice", 0⟩), (1, ⟨"Bob", 0⟩)], muted := [],
    adminSocket := some 0, adminPassword := some "pw" }
def c9World : ChatState :=
  { wssClients := [0], readyState := [(0, 1)], tempNickname := [],
    clients := [(0, ⟨"Alice", 0⟩)], muted := [],
    adminSocket := none, adminPassword := none }
def c2Demo : ChatState :=
  (connectStep 1 (handleMessage 0 "Alice" 1 (connectStep 0 (initState none)).1).1).1
theorem splitChars_ne_nil (l : List Char) : splitChars l ≠ [] := by
  cases l with
  | nil => simp [splitChars]
  | cons c cs =>
    unfold splitChars
    split
    · simp
    · split <;> simp

theorem splitChars_no_space {l : List Char} (h : ' ' ∉ l) : splitChars l = [l] := by
  induction l with
  | nil => rfl
  | cons c cs ih =>
    have hc : c ≠ ' ' := fun hce => h (hce ▸ List.mem_cons_self c cs)
    have hcs : ' ' ∉ cs := fun hm => h (List.mem_cons_of_mem c hm)
    unfold splitChars
    rw [if_neg hc, ih hcs]

theorem lowerChar_space : lowerChar ' ' = ' ' := by decide

theorem jsToLower_exit_no_space {msg : String} (h : jsToLower msg = "exit") :
    ' ' ∉ msg.data := by
  intro hm
  have h1 : lowerChar ' ' ∈ msg.data.map lowerChar := List.mem_map_of_mem lowerChar hm
  rw [lowerChar_space] at h1
  have h2 : msg.data.map lowerChar = "exit".data := congrArg String.data h
  rw [h2] at h1
  simp at h1

theorem splitChars_eq_single {l m : List Char} (h : splitChars l = [m]) : m = l := by
  induction l generalizing m with
  | nil =>
    simp [splitChars] at h
    exact h
  | cons c cs ih =>
    unfold splitChars at h
    by_cases hc : c = ' '
    · rw [if_pos hc] at h
      cases hsp : splitChars cs with
      | nil => exact absurd hsp (splitChars_ne_nil cs)
      | cons a as =>
        rw [hsp] at h
        simp at h
    · rw [if_neg hc] at h
      cases hsp : splitChars cs with
      | nil => exact absurd hsp (splitChars_ne_nil cs)
      | cons a as =>
        rw [hsp] at h
        simp at h
        rcases h with ⟨h1, h2⟩
        subst h2
        have ha := ih hsp
        rw [← h1, ha]

theorem jsSplit_eq_single {msg t : String} (h : jsSplit msg = [t]) : t = msg := by
  unfold jsSplit at h
  rcases hsp : splitChars msg.data with _ | ⟨m, ms⟩
  · exact absurd hsp (splitChars_ne_nil msg.data)
  · rw [hsp] at h
    simp at h
    rcases h with ⟨h1, h2⟩
    subst h2
    have hm := splitChars_eq_single hsp
    rw [← h1, hm]

theorem jsToLower_ne_exit_of_head {msg t : String} {rest : List String}
    (h : jsSplit msg = t :: rest) (ht : jsToLower t ≠ "exit") :
    jsToLower msg ≠ "exit" := by
  intro heq
  have hns := jsToLower_exit_no_space heq
  have h1 : jsSplit msg = [msg] := by
    unfold jsSplit
    rw [splitChars_no_space hns]
    rfl
  rw [h1] at h
  cases h
  exact ht heq
theorem lookup_mapSet_self {α : Type} (l : List (Socket × α)) (s : Socket) (v : α) :
    List.lookup s (mapSet l s v) = some v := by
  induction l with
  | nil => simp [mapSet]
  | cons p t ih =>
    obtain ⟨k, w⟩ := p
    unfold mapSet
    by_cases hk : k = s
    · rw [if_pos hk, hk]
      simp [List.lookup_cons]
    · rw [if_neg hk]
      rw [List.lookup_cons, beq_false_of_ne (Ne.symm hk)]
      exact ih

theorem lookup_mapSet_ne {α : Type} (l : List (Socket × α)) {s s' : Socket} (v : α)
    (h : s' ≠ s) : List.lookup s' (mapSet l s v) = List.lookup s' l := by
  induction l with
  | nil => simp [mapSet, List.lookup_cons, beq_false_of_ne h]
  | cons p t ih =>
    obtain ⟨k, w⟩ := p
    unfold mapSet
    by_cases hk : k = s
    · rw [if_pos hk, hk]
      rw [List.lookup_cons, List.lookup_cons, beq_false_of_ne h]
    · rw [if_neg hk]
      rw [List.lookup_cons, List.lookup_cons]
      by_cases hsk : s' = k
      · rw [hsk]
        simp
      · rw [beq_false_of_ne hsk]
        exact ih

theorem mem_mapSet {α : Type} {l : List (Socket × α)} {s : Socket} {v : α}
    {p : Socket × α} (h : p ∈ mapSet l s v) : p ∈ l ∨ p = (s, v) := by
  induction l with
  | nil => simpa [mapSet] using h
  | cons q t ih =>
    obtain ⟨k, w⟩ := q
    unfold mapSet at h
    by_cases hk : k = s
    · rw [if_pos hk] at h
      rcases List.mem_cons.mp h with h1 | h1
      · right
        rw [h1, hk]
      · left
        exact List.mem_cons_of_mem _ h1
    · rw [if_neg hk] at h
      rcases List.mem_cons.mp h with h1 | h1
      · left
        rw [h1]
        exact List.mem_cons_self _ _
      · rcases ih h1 with h2 | h2
        · left
          exact List.mem_cons_of_mem _ h2
        · right
          exact h2

theorem mapDelete_sublist {α : Type} (l : List (Socket × α)) (s : Socket) :
    (mapDelete l s).Sublist l := by
  induction l with
  | nil => simp [mapDelete]
  | cons q t ih =>
    obtain ⟨k, w⟩ := q
    unfold mapDelete
    by_cases hk : k = s
    · rw [if_pos hk]
      exact (List.sublist_cons_self _ _)
    · rw [if_neg hk]
      exact ih.cons₂ _
theorem map_nickname_mapSet_same {l : List (Socket × ClientInfo)} {s : Socket}
    {info v : ClientInfo} (h : List.lookup s l = some info)
    (hv : v.nickname = info.nickname) :
    (mapSet l s v).map (fun c => c.2.nickname) = l.map (fun c => c.2.nickname) := by
  induction l with
  | nil => simp [List.lookup_nil] at h
  | cons p t ih =>
    obtain ⟨k, w⟩ := p
    unfold mapSet
    by_cases hk : k = s
    · rw [if_pos hk]
      rw [hk] at h
      rw [List.lookup_cons] at h
      simp only [beq_self_eq_true] at h
      have hw : w = info := by simpa using h
      simp [hv, hw]
    · rw [if_neg hk]
      rw [List.lookup_cons, beq_false_of_ne (Ne.symm hk)] at h
      simp [ih h]

theorem nodup_map_nickname_mapSet {l : List (Socket × ClientInfo)} {s : Socket}
    {m : String} {ts : Nat} (hfresh : ∀ c ∈ l, c.2.nickname ≠ m)
    (hnd : (l.map (fun c => c.2.nickname)).Nodup) :
    ((mapSet l s ⟨m, ts⟩).map (fun c => c.2.nickname)).Nodup := by
  induction l with
  | nil => simp [mapSet]
  | cons p t ih =>
    obtain ⟨k, w⟩ := p
    simp only [List.map_cons, List.nodup_cons] at hnd
    unfold mapSet
    by_cases hk : k = s
    · rw [if_pos hk]
      simp only [List.map_cons, List.nodup_cons]
      refine ⟨?_, hnd.2⟩
      intro hm
      rcases List.mem_map.mp hm with ⟨c, hc, hce⟩
      exact hfresh c (List.mem_cons_of_mem _ hc) hce
    · rw [if_neg hk]
      simp only [List.map_cons, List.nodup_cons]
      refine ⟨?_, ih (fun c hc => hfresh c (List.mem_cons_of_mem _ hc)) hnd.2⟩
      intro hm
      rcases List.mem_map.mp hm with ⟨c, hc, hce⟩
      rcases mem_mapSet hc with h1 | h1
      · exact hnd.1 (hce ▸ List.mem_map_of_mem (fun c => c.2.nickname) h1)
      · apply hfresh (k, w) (List.mem_cons_self _ _)
        rw [h1] at hce
        exact hce.symm
theorem handleAdminCommand_registry (s : Socket) (pw : Option String) (st : ChatState) :
    (handleAdminCommand s pw st).1.clients = st.clients
    ∧ (handleAdminCommand s pw st).1.tempNickname = st.tempNickname := by
  unfold handleAdminCommand
  split <;> exact ⟨rfl, rfl⟩

theorem handleKickCommand_registry (s : Socket) (t : Option String) (st : ChatState) :
    (handleKickCommand s t st).1.clients = st.clients
    ∧ (handleKickCommand s t st).1.tempNickname = st.tempNickname := by
  unfold handleKickCommand
  split
  · exact ⟨rfl, rfl⟩
  · split <;> exact ⟨rfl, rfl⟩

theorem handleMuteCommand_registry (s : Socket) (t : Option String) (st : ChatState) :
    (handleMuteCommand s t st).1.clients = st.clients
    ∧ (handleMuteCommand s t st).1.tempNickname = st.tempNickname := by
  unfold handleMuteCommand
  split
  · exact ⟨rfl, rfl⟩
  · dsimp only
    split <;> exact ⟨rfl, rfl⟩

theorem handleUnmuteCommand_registry (s : Socket) (t : Option String) (st : ChatState) :
    (handleUnmuteCommand s t st).1.clients = st.clients
    ∧ (handleUnmuteCommand s t st).1.tempNickname = st.tempNickname := by
  unfold handleUnmuteCommand
  split
  · exact ⟨rfl, rfl⟩
  · dsimp only
    split <;> exact ⟨rfl, rfl⟩

theorem handlePrivateMessage_registry (s : Socket) (n : String) (parts : List String)
    (st : ChatState) :
    (handlePrivateMessage s n parts st).1.clients = st.clients
    ∧ (handlePrivateMessage s n parts st).1.tempNickname = st.tempNickname := by
  unfold handlePrivateMessage
  dsimp only
  split <;> exact ⟨rfl, rfl⟩

theorem handleLastSeenCommand_registry (s : Socket) (st : ChatState) :
    (handleLastSeenCommand s st).1.clients = st.clients
    ∧ (handleLastSeenCommand s st).1.tempNickname = st.tempNickname :=
  ⟨rfl, rfl⟩

theorem processChatMessage_registry (s : Socket) (n msg : String) (now : Nat)
    (st : ChatState) :
    (processChatMessage s n msg now st).1.clients = st.clients
    ∧ (processChatMessage s n msg now st).1.tempNickname = st.tempNickname := by
  unfold processChatMessage
  dsimp only
  split
  · exact ⟨rfl, rfl⟩
  split
  · exact ⟨rfl, rfl⟩
  split
  · exact ⟨rfl, rfl⟩
  split
  · exact handleAdminCommand_registry _ _ _
  split
  · exact handleKickCommand_registry _ _ _
  split
  · exact handleMuteCommand_registry _ _ _
  split
  · exact handleUnmuteCommand_registry _ _ _
  split
  · exact handlePrivateMessage_registry _ _ _ _
  split
  · exact handleLastSeenCommand_registry _ _
  split
  · exact ⟨rfl, rfl⟩
  · exact ⟨rfl, rfl⟩

theorem updateUserLastSeen_registry (s : Socket) (now : Nat) (st : ChatState) :
    ((updateUserLastSeen s now st).1.clients).map (fun c => c.2.nickname)
        = st.clients.map (fun c => c.2.nickname)
    ∧ (updateUserLastSeen s now st).1.tempNickname = st.tempNickname
    ∧ (updateUserLastSeen s now st).1.muted = st.muted
    ∧ (updateUserLastSeen s now st).1.adminSocket = st.adminSocket := by
  unfold updateUserLastSeen
  cases h : List.lookup s st.clients with
  | none => exact ⟨rfl, rfl, rfl, rfl⟩
  | some info =>
    refine ⟨?_, rfl, rfl, rfl⟩
    exact map_nickname_mapSet_same h rfl
theorem regInv_initState (pw : Option String) : RegInv (initState pw) := by
  constructor
  · simp [nicknames, initState]
  · simp [initState]

theorem regInv_updateUserLastSeen (s : Socket) (now : Nat) {st : ChatState}
    (h : RegInv st) : RegInv (updateUserLastSeen s now st).1 := by
  obtain ⟨h1, h2⟩ := h
  have r := updateUserLastSeen_registry s now st
  constructor
  · unfold nicknames at h1 ⊢
    rw [r.1]
    exact h1
  · rw [r.2.1]
    exact h2

theorem regInv_processChatMessage (s : Socket) (n msg : String) (now : Nat)
    {st : ChatState} (h : RegInv st) : RegInv (processChatMessage s n msg now st).1 := by
  obtain ⟨h1, h2⟩ := h
  have r := processChatMessage_registry s n msg now st
  constructor
  · unfold nicknames at h1 ⊢
    rw [r.1]
    exact h1
  · rw [r.2]
    exact h2

theorem regInv_connectStep (s : Socket) {st : ChatState} (h : RegInv st) :
    RegInv (connectStep s st).1 := by
  obtain ⟨h1, h2⟩ := h
  constructor
  · exact h1
  · intro p hp
    rcases mem_mapSet hp with hm | hm
    · exact h2 p hm
    · rw [hm]

theorem regInv_handleMessage (s : Socket) (rawMsg : String) (now : Nat)
    {st : ChatState} (h : RegInv st) : RegInv (handleMessage s rawMsg now st).1 := by
  unfold handleMessage
  dsimp only
  split
  · -- claim path
    split
    · exact h
    case isFalse hany =>
      have hfresh : ∀ c ∈ st.clients, c.2.nickname ≠ jsTrim rawMsg := by
        intro c hc hce
        exact hany (List.any_eq_true.mpr ⟨c, hc, by simp [hce]⟩)
      have h1 : RegInv { st with
          clients := mapSet st.clients s ⟨jsTrim rawMsg, now⟩,
          tempNickname := mapDelete st.tempNickname s } := by
        constructor
        · exact nodup_map_nickname_mapSet hfresh h.1
        · intro p hp
          exact h.2 p (List.Sublist.mem hp (mapDelete_sublist _ _))
      exact regInv_updateUserLastSeen s now h1
  · -- authenticated path
    split
    · -- clientInfo present: touch, then dispatch unless the touch threw
      split
      · exact regInv_updateUserLastSeen s now h
      · exact regInv_processChatMessage _ _ _ _ (regInv_updateUserLastSeen s now h)
    · -- clientInfo absent but tempNickname truthy: dispatch only
      exact regInv_processChatMessage _ _ _ _ h

theorem regInv_of_fields {st st' : ChatState}
    (hc : st'.clients = st.clients) (ht : st'.tempNickname = st.tempNickname)
    (h : RegInv st) : RegInv st' := by
  obtain ⟨h1, h2⟩ := h
  constructor
  · unfold nicknames at h1 ⊢
    rw [hc]
    exact h1
  · rw [ht]
    exact h2

theorem regInv_handleDisconnection (s : Socket) (now : Nat) {st : ChatState}
    (h : RegInv st) : RegInv (handleDisconnection s now st).1 := by
  unfold handleDisconnection
  dsimp only
  split
  · exact regInv_updateUserLastSeen s now h
  · have h1 := regInv_updateUserLastSeen s now h
    have h2 : RegInv { (updateUserLastSeen s now st).1 with
        clients := mapDelete (updateUserLastSeen s now st).1.clients s } := by
      constructor
      · unfold nicknames
        exact h1.1.sublist (List.Sublist.map _ (mapDelete_sublist _ _))
      · exact h1.2
    refine regInv_of_fields ?_ ?_ h2
    · repeat' split
      all_goals rfl
    · repeat' split
      all_goals rfl

theorem regInv_step {st st' : ChatState} (h : RegInv st) (hs : Step st st') : RegInv st' := by
  cases hs with
  | connect s st => exact regInv_connectStep s h
  | message s msg now st => exact regInv_handleMessage s msg now h
  | process s nick msg now st => exact regInv_processChatMessage s nick msg now h
  | disconnect s now st => exact regInv_handleDisconnection s now h

theorem regInv_reachable {pw : Option String} {st : ChatState}
    (h : Reachable pw st) : RegInv st := by
  induction h with
  | refl => exact regInv_initState pw
  | tail _ hs ih => exact regInv_step ih hs
theorem mem_of_lookup_eq_some {α : Type} {l : List (Socket × α)} {s : Socket} {v : α}
    (h : List.lookup s l = some v) : (s, v) ∈ l := by
  induction l with
  | nil => simp [List.lookup_nil] at h
  | cons p t ih =>
    obtain ⟨k, w⟩ := p
    rw [List.lookup_cons] at h
    by_cases hk : s = k
    · subst hk
      simp only [beq_self_eq_true] at h
      have : w = v := by simpa using h
      rw [← this]
      exact List.mem_cons_self _ _
    · rw [beq_false_of_ne hk] at h
      exact List.mem_cons_of_mem _ (ih h)
theorem lookup_updateUserLastSeen (s s' : Socket) (now : Nat) (st : ChatState) :
    (List.lookup s (updateUserLastSeen s' now st).1.clients).map ClientInfo.nickname
      = (List.lookup s st.clients).map ClientInfo.nickname := by
  unfold updateUserLastSeen
  cases h : List.lookup s' st.clients with
  | none => rfl
  | some i =>
    dsimp only
    by_cases hss : s = s'
    · subst hss
      rw [lookup_mapSet_self, h]
      rfl
    · rw [lookup_mapSet_ne _ _ hss]
/-- C1: on an accepted inbound message from an authenticated session the code
does refresh `lastSeen`, but the roster republish throws (the helper calls
`broadcastUserList` with no `wss` argument), so no `[USERS]` frame reaches
any open connection and command interpretation never runs: the handler ends
with an uncaught `TypeError` having emitted no event at all. -/
theorem c1_roster_publish_on_message_bug :
    handleMessage 0 "hello" 5 c1World =
      ({ c1World with clients := [(0, ⟨"Alice", 5⟩), (1, ⟨"Bob", 0⟩)] }, [], true) := by
  decide
/-- C2: in every reachable state, distinct sessions with non-empty nicknames
hold different nicknames (exact, case-sensitive equality); and an
unauthenticated connection whose (trimmed) line equals an existing session's
nickname is only answered `Nickname taken. Try another:`, the whole state —
in particular the registry and the connection's unauthenticated status —
being unchanged. -/
theorem c2_nickname_uniqueness (pw : Option String) (st : ChatState)
    (hreach : Reachable pw st) :
    st.clients.Pairwise (fun a b => a.2.nickname ≠ "" → b.2.nickname ≠ "" →
      a.2.nickname ≠ b.2.nickname)
  ∧ (∀ s msg now, List.lookup s st.clients = none →
      (∃ c ∈ st.clients, c.2.nickname = jsTrim msg) →
      handleMessage s msg now st =
        (st, [Event.sent s "Nickname taken. Try another:"], false)) := by
  have hinv := regInv_reachable hreach
  constructor
  · have h1 := hinv.1
    unfold nicknames at h1
    have h2 : st.clients.Pairwise (fun a b => a.2.nickname ≠ b.2.nickname) := by
      rw [List.Nodup, List.pairwise_map] at h1
      exact h1
    exact h2.imp (fun hab => fun _ _ => hab)
  · intro s msg now hnone hex
    have htemp : lookupTemp st.tempNickname s = none := by
      unfold lookupTemp
      cases hl : List.lookup s st.tempNickname with
      | none => rfl
      | some v =>
        have := hinv.2 (s, v) (mem_of_lookup_eq_some hl)
        exact this
    have hany : (st.clients.any fun c => c.2.nickname == jsTrim msg) = true := by
      rcases hex with ⟨c, hc, hcn⟩
      exact List.any_eq_true.mpr ⟨c, hc, by simp [hcn]⟩
    unfold handleMessage
    dsimp only
    rw [hnone]
    dsimp only
    rw [htemp]
    simp only [truthyStr, if_pos rfl]
    rw [if_pos hany]
    simp
/-- Witness for C2 at a reachable state: socket 0 claimed `Alice`; the fresh
unauthenticated socket 1 then sends `Alice`. -/
theorem c2_nickname_uniqueness_witness :
    handleMessage 1 "Alice" 5 c2Demo =
      (c2Demo, [Event.sent 1 "Nickname taken. Try another:"], false) := by
  have hreach : Reachable none c2Demo :=
    Relation.ReflTransGen.tail
      (Relation.ReflTransGen.tail
        (Relation.ReflTransGen.tail Relation.ReflTransGen.refl
          (Step.connect 0 (initState none)))
        (Step.message 0 "Alice" 1 (connectStep 0 (initState none)).1))
      (Step.connect 1 (handleMessage 0 "Alice" 1 (connectStep 0 (initState none)).1).1)
  exact (c2_nickname_uniqueness none c2Demo hreach).2 1 "Alice" 5 (by decide) (by decide)
/-- C3: teardown of a registered session aborts at its very first statement —
`updateUserLastSeen` throws via the argument-less `broadcastUserList()` call —
so the session stays in the registry, the muted set still holds the nickname,
the admin slot still equals the handle, and neither the leave broadcast nor
the `disconnected.` log line is emitted. -/
theorem c3_teardown_effects_bug :
    handleDisconnection 0 5 c3World =
      ({ c3World with clients := [(0, ⟨"Alice", 5⟩), (1, ⟨"Bob", 0⟩)] }, [], true)
    ∧ (handleDisconnection 0 5 c3World).1.muted = ["Alice"]
    ∧ (handleDisconnection 0 5 c3World).1.adminSocket = some 0 := by
  decide
/-- C4 counterexample: the empty string is accepted as a successful nickname
claim (the welcome line naming it is sent), yet the very next inbound message
re-enters the claim path — because the empty nickname is falsy — and
reassigns the session's nickname to `Bob`. -/
theorem c4_counterexample_empty_nickname_reclaim :
    ((handleMessage 0 "" 1 c4World).2.1.contains
        (Event.sent 0 "Welcome ! Use /list, /msg, /admin, /mute, /kick, /lastseen etc.") = true)
    ∧ List.lookup 0 (handleMessage 0 "" 1 c4World).1.clients = some ⟨"", 1⟩
    ∧ List.lookup 0
        (handleMessage 0 "Bob" 2 (handleMessage 0 "" 1 c4World).1).1.clients
        = some ⟨"Bob", 2⟩ := by
  decide
/-- C4 (amended): once a session's nickname has been set to a non-empty
string, no later inbound message — on this or any other connection — changes
it or removes the session from the registry, so the connection never returns
to the unauthenticated state.  (A session whose successful claim left the
empty nickname stays on the claim path instead; see the counterexample.) -/
theorem c4_nickname_assigned_once_nonempty (st : ChatState) (s s' : Socket)
    (msg : String) (now : Nat) (info : ClientInfo)
    (hs : List.lookup s st.clients = some info) (hne : info.nickname ≠ "") :
    (List.lookup s (handleMessage s' msg now st).1.clients).map ClientInfo.nickname
      = some info.nickname := by
  unfold handleMessage
  dsimp only
  split
  case isTrue htr =>
    by_cases hss : s' = s
    · subst hss
      rw [hs] at htr
      simp [truthyStr, hne] at htr
    · split
      · rw [hs]
        rfl
      · dsimp only
        rw [lookup_updateUserLastSeen]
        dsimp only
        rw [lookup_mapSet_ne _ _ (fun he => hss he.symm), hs]
        rfl
  · split
    · split
      · dsimp only
        rw [lookup_updateUserLastSeen, hs]
        rfl
      · dsimp only
        rw [(processChatMessage_registry _ _ _ _ _).1, lookup_updateUserLastSeen, hs]
        rfl
    · dsimp only
      rw [(processChatMessage_registry _ _ _ _ _).1, hs]
      rfl

/-- Witness for the amended C4: Alice's nickname survives a further inbound
message on her own connection. -/
theorem c4_nickname_assigned_once_nonempty_witness :
    (List.lookup 0 (handleMessage 0 "hello" 7 c1World).1.clients).map ClientInfo.nickname
      = some "Alice" :=
  c4_nickname_assigned_once_nonempty c1World 0 0 "hello" 7 ⟨"Alice", 0⟩ rfl (by decide)
/-- C5: `broadcast(text, exceptHandle=h)` delivers to no connection equal to
`h`, delivers exactly once to every other open connection of the server's
connection set, and silently skips (delivers zero times to) any connection
that is not open; the fan-out is a total function, raising no error. -/
theorem c5_broadcast_exclusion (st : ChatState) (text : String) (h : Socket)
    (hnd : st.wssClients.Nodup) :
    (broadcast text (some h) st).count (Event.sent h text) = 0
  ∧ (∀ c ∈ st.wssClients, c ≠ h → isOpen st c = true →
      (broadcast text (some h) st).count (Event.sent c text) = 1)
  ∧ (∀ c, isOpen st c = false →
      (broadcast text (some h) st).count (Event.sent c text) = 0) := by
  unfold broadcast
  refine ⟨?_, ?_, ?_⟩
  · rw [List.count_append]
    have h1 : Event.sent h text ∉
        (st.wssClients.filter
          (fun c => isOpen st c && (some c : Option Socket) ≠ some h)).map
          (fun c => Event.sent c text) := by
      intro hm
      rcases List.mem_map.mp hm with ⟨c, hc, hce⟩
      have : c = h := by injection hce
      subst this
      have := (List.mem_filter.mp hc).2
      simp at this
    rw [List.count_eq_zero.mpr h1]
    simp
  · intro c hc hne hop
    rw [List.count_append]
    have hmem : c ∈ st.wssClients.filter
        (fun c => isOpen st c && (some c : Option Socket) ≠ some h) := by
      refine List.mem_filter.mpr ⟨hc, ?_⟩
      simp [hop, hne]
    have hndf := hnd.filter
      (p := fun c => isOpen st c && (some c : Option Socket) ≠ some h)
    have h1 : (st.wssClients.filter
        (fun c => isOpen st c && (some c : Option Socket) ≠ some h)).count c = 1 :=
      List.count_eq_one_of_mem hndf hmem
    have hinj : Function.Injective (fun c => Event.sent c text) := by
      intro a b hab
      simpa using hab
    rw [List.count_map_of_injective _ _ hinj, h1]
    simp
  · intro c hop
    rw [List.count_append]
    have h1 : Event.sent c text ∉
        (st.wssClients.filter
          (fun c => isOpen st c && (some c : Option Socket) ≠ some h)).map
          (fun c => Event.sent c text) := by
      intro hm
      rcases List.mem_map.mp hm with ⟨c', hc', hce⟩
      have : c' = c := by injection hce
      subst this
      have := (List.mem_filter.mp hc').2
      simp [hop] at this
    rw [List.count_eq_zero.mpr h1]
    simp

/-- Witness for C5 at a concrete state. -/
theorem c5_broadcast_exclusion_witness :
    (broadcast "hi" (some 0)
        { wssClients := [0, 1, 2], readyState := [(0, 1), (1, 1), (2, 0)],
          tempNickname := [], clients := [], muted := [], adminSocket := none,
          adminPassword := none }).count (Event.sent 0 "hi") = 0
  ∧ (broadcast "hi" (some 0)
        { wssClients := [0, 1, 2], readyState := [(0, 1), (1, 1), (2, 0)],
          tempNickname := [], clients := [], muted := [], adminSocket := none,
          adminPassword := none }).count (Event.sent 1 "hi") = 1
  ∧ (broadcast "hi" (some 0)
        { wssClients := [0, 1, 2], readyState := [(0, 1), (1, 1), (2, 0)],
          tempNickname := [], clients := [], muted := [], adminSocket := none,
          adminPassword := none }).count (Event.sent 2 "hi") = 0 := by
  have h := c5_broadcast_exclusion
    { wssClients := [0, 1, 2], readyState := [(0, 1), (1, 1), (2, 0)],
      tempNickname := [], clients := [], muted := [], adminSocket := none,
      adminPassword := none } "hi" 0 (by decide)
  exact ⟨h.1, h.2.1 1 (by decide) (by decide) (by decide), h.2.2 2 (by decide)⟩
/-- C6: `/msg <target> <text...>` from an authenticated sender: when a
registered session holds the target nickname, that session receives the
`[Private]` line, the sender the `(to ...)` echo, and the private line goes
to the log sink — with no dependence on the muted set; otherwise only
`User not found.` is sent to the sender and nothing is logged.  The state is
unchanged in both cases. -/
theorem c6_private_message_delivery (st : ChatState) (s : Socket)
    (snick msg t : String) (rest : List String) (now : Nat)
    (hsplit : jsSplit msg = "/msg" :: t :: rest) :
    (∀ ts info, findByNickname st.clients (some t) = some (ts, info) →
      processChatMessage s snick msg now st =
        (st, [Event.sent ts ("[Private] " ++ snick ++ ": " ++ String.intercalate " " rest),
              Event.sent s ("(to " ++ t ++ "): " ++ String.intercalate " " rest),
              Event.logged ("[Private] " ++ snick ++ ": " ++ String.intercalate " " rest)]))
  ∧ (findByNickname st.clients (some t) = none →
      processChatMessage s snick msg now st = (st, [Event.sent s "User not found."])) := by
  have hexit : jsToLower msg ≠ "exit" := jsToLower_ne_exit_of_head hsplit (by decide)
  have hcmd : jsToLower "/msg" = "/msg" := by decide
  constructor
  · intro ts info hfind
    simp [processChatMessage, hsplit, hexit, hcmd, handlePrivateMessage, hfind, logMessage]
  · intro hfind
    simp [processChatMessage, hsplit, hexit, hcmd, handlePrivateMessage, hfind]
/-- Witness for C6: Scenario C and Scenario E at a concrete state. -/
theorem c6_private_message_delivery_witness :
    processChatMessage 0 "Alice" "/msg Bob hi there" 9 c1World =
      (c1World, [Event.sent 1 "[Private] Alice: hi there",
                 Event.sent 0 "(to Bob): hi there",
                 Event.logged "[Private] Alice: hi there"])
  ∧ processChatMessage 0 "Alice" "/msg Carol hi" 9 c1World =
      (c1World, [Event.sent 0 "User not found."]) := by
  constructor
  · have h := (c6_private_message_delivery c1World 0 "Alice" "/msg Bob hi there"
      "Bob" ["hi", "there"] 9 (by decide)).1 1 ⟨"Bob", 0⟩ (by decide)
    simpa using h
  · have h := (c6_private_message_delivery c1World 0 "Alice" "/msg Carol hi"
      "Carol" ["hi"] 9 (by decide)).2 (by decide)
    simpa using h
/-- C7: a default (non-command) line from an authenticated session is gated
by the muted set: a muted sender only gets `You are muted.` back — nothing is
broadcast, nothing is logged, and the whole shared state is unchanged; an
unmuted sender's line is formatted with the dispatch-time timestamp,
broadcast to every open connection except the sender, and the same formatted
line goes to the log sink. -/
theorem c7_mute_gates_default_chat (st : ChatState) (s : Socket)
    (nickname msg : String) (now : Nat)
    (hexit : jsToLower msg ≠ "exit")
    (hcmd : jsToLower ((jsSplit msg).headD "") ∉
      (["/list", "typing:", "/admin", "/kick", "/mute", "/unmute", "/msg",
        "/lastseen"] : List String)) :
    (st.muted.contains nickname = true →
      processChatMessage s nickname msg now st = (st, [Event.sent s "You are muted."]))
  ∧ (st.muted.contains nickname = false →
      processChatMessage s nickname msg now st =
        (st, broadcast ("[" ++ jsLocaleString now ++ " -- " ++ nickname ++ "] " ++ msg)
               (some s) st
             ++ [Event.logged ("[" ++ jsLocaleString now ++ " -- " ++ nickname ++ "] " ++ msg)])) := by
  simp only [List.mem_cons, List.not_mem_nil, or_false, not_or] at hcmd
  obtain ⟨h1, h2, h3, h4, h5, h6, h7, h8⟩ := hcmd
  constructor
  · intro hm
    simp only [processChatMessage]
    rw [if_neg hexit, if_neg h1, if_neg h2, if_neg h3, if_neg h4, if_neg h5, if_neg h6,
      if_neg h7, if_neg h8, if_pos hm]
  · intro hm
    simp only [processChatMessage, logMessage]
    rw [if_neg hexit, if_neg h1, if_neg h2, if_neg h3, if_neg h4, if_neg h5, if_neg h6,
      if_neg h7, if_neg h8, if_neg (by simpa using hm)]
/-- Witness for C7: muted Bob only hears `You are muted.`; unmuted Alice's
line is broadcast to Bob and logged. -/
theorem c7_mute_gates_default_chat_witness :
    processChatMessage 1 "Bob" "hello" 9 c7World = (c7World, [Event.sent 1 "You are muted."])
  ∧ processChatMessage 0 "Alice" "hello" 9 c7World =
      (c7World, [Event.sent 1 "[9 -- Alice] hello", Event.console "[9 -- Alice] hello",
                 Event.logged "[9 -- Alice] hello"]) := by
  constructor
  · have h := (c7_mute_gates_default_chat c7World 1 "Bob" "hello" 9 (by decide) (by decide)).1
      (by decide)
    simpa using h
  · have h := (c7_mute_gates_default_chat c7World 0 "Alice" "hello" 9 (by decide) (by decide)).2
      (by decide)
    rw [h]
    decide
/-- C8: the `/kick` handler never mutates the session registry, the muted set
or the admin slot (the returned state is the input state in every branch);
for an admin with an existing target it only sends `You have been kicked.`
and closes the target's transport, the target's entry still being in the
registry when it returns; for a missing target the admin gets
`User not found.`. -/
theorem c8_kick_frame_conditions (st : ChatState) (s : Socket) (target : Option String) :
    (handleKickCommand s target st).1 = st
  ∧ (st.adminSocket = some s →
      ∀ ts info, findByNickname st.clients target = some (ts, info) →
        (handleKickCommand s target st).2 =
          [Event.sent ts "You have been kicked.", Event.closed ts]
        ∧ (ts, info) ∈ (handleKickCommand s target st).1.clients)
  ∧ (st.adminSocket = some s →
      findByNickname st.clients target = none →
        (handleKickCommand s target st).2 = [Event.sent s "User not found."]) := by
  refine ⟨?_, ?_, ?_⟩
  · unfold handleKickCommand
    split
    · rfl
    · split <;> rfl
  · intro hadm ts info hfind
    refine ⟨by simp [handleKickCommand, hadm, hfind], ?_⟩
    have h1 : (handleKickCommand s target st).1 = st := by
      unfold handleKickCommand
      split
      · rfl
      · split <;> rfl
    rw [h1]
    exact List.mem_of_find?_eq_some hfind
  · intro hadm hfind
    simp [handleKickCommand, hadm, hfind]
/-- Witness for C8: admin Alice kicks Bob (state untouched, Bob still
registered) and kicks a missing user. -/
theorem c8_kick_frame_conditions_witness :
    (handleKickCommand 0 (some "Bob") c8World).1 = c8World
  ∧ (handleKickCommand 0 (some "Bob") c8World).2 =
      [Event.sent 1 "You have been kicked.", Event.closed 1]
  ∧ (1, (⟨"Bob", 0⟩ : ClientInfo)) ∈ (handleKickCommand 0 (some "Bob") c8World).1.clients
  ∧ (handleKickCommand 0 (some "Zed") c8World).2 = [Event.sent 0 "User not found."] := by
  have h := c8_kick_frame_conditions c8World 0 (some "Bob")
  have h2 := h.2.1 rfl 1 ⟨"Bob", 0⟩ (by decide)
  have h3 := (c8_kick_frame_conditions c8World 0 (some "Zed")).2.2 rfl (by decide)
  exact ⟨h.1, h2.1, h2.2, h3⟩
/-- C9: with no configured admin password (`process.env.ADMIN_PASSWORD`
unset), the bare line `/admin` extracts an `undefined` token which compares
equal (`===`) to the `undefined` password, so the sender is elevated: the
admin slot is set to its connection and it is told `You are now the admin.`. -/
theorem c9_admin_elevation_without_password (st : ChatState) (s : Socket)
    (nickname : String) (now : Nat) (hpw : st.adminPassword = none) :
    processChatMessage s nickname "/admin" now st =
      ({ st with adminSocket := some s }, [Event.sent s "You are now the admin."]) := by
  have h1 : jsSplit "/admin" = ["/admin"] := by decide
  have h2 : jsToLower "/admin" = "/admin" := by decide
  simp [processChatMessage, handleAdminCommand, h1, h2, hpw]
/-- Witness for C9 at a concrete state with no configured password. -/
theorem c9_admin_elevation_without_password_witness :
    processChatMessage 0 "Alice" "/admin" 9 c9World =
      ({ c9World with adminSocket := some 0 }, [Event.sent 0 "You are now the admin."]) :=
  c9_admin_elevation_without_password c9World 0 "Alice" 9 rfl
/-- C10: authenticated dispatch keys on the lower-cased first space-delimited
token: any line whose first token lower-cases to `/list` (extra words
allowed) gets the `Online: ` roster reply, and any line whose first token
lower-cases to `typing:` followed by more text is delivered as a
`[TYPING] <nickname>` notice to the other open registered connections
instead of being broadcast as generic chat. -/
theorem c10_first_token_dispatch (st : ChatState) (s : Socket)
    (nickname msg : String) (now : Nat) :
    (∀ t rest, jsSplit msg = t :: rest → jsToLower t = "/list" →
      processChatMessage s nickname msg now st =
        (st, [Event.sent s ("Online: " ++
          String.intercalate ", " (st.clients.map (fun c => c.2.nickname)))]))
  ∧ (∀ t r rest, jsSplit msg = t :: r :: rest → jsToLower t = "typing:" →
      processChatMessage s nickname msg now st =
        (st, (st.clients.filter (fun c => c.1 ≠ s && isOpen st c.1)).map
          (fun c => Event.sent c.1 ("[TYPING] " ++ nickname)))) := by
  constructor
  · intro t rest hsplit hlow
    have hexit : jsToLower msg ≠ "exit" :=
      jsToLower_ne_exit_of_head hsplit (by rw [hlow]; decide)
    simp [processChatMessage, hsplit, hlow, hexit]
  · intro t r rest hsplit hlow
    have hexit : jsToLower msg ≠ "exit" :=
      jsToLower_ne_exit_of_head hsplit (by rw [hlow]; decide)
    simp [processChatMessage, hsplit, hlow, hexit]

/-- Witness for C10: `/LIST extra words` and `typing: hello` at a concrete
state. -/
theorem c10_first_token_dispatch_witness :
    processChatMessage 0 "Alice" "/LIST extra words" 9 c1World =
      (c1World, [Event.sent 0 "Online: Alice, Bob"])
  ∧ processChatMessage 0 "Alice" "typing: hello" 9 c1World =
      (c1World, [Event.sent 1 "[TYPING] Alice"]) := by
  constructor
  · have h := (c10_first_token_dispatch c1World 0 "Alice" "/LIST extra words" 9).1
      "/LIST" ["extra", "words"] (by decide) (by decide)
    rw [h]
    decide
  · have h := (c10_first_token_dispatch c1World 0 "Alice" "typing: hello" 9).2
      "typing:" "hello" [] (by decide) (by decide)
    rw [h]
    decide
